/-
Verification of the gocyclo front-end (`cmd/gocyclo/main.go`) and of the
statistics core it consumes.

The repository contains only the command-line front-end; the library it calls
(`gocyclo.Analyze`, `Stats.SortAndFilter`, `Stats.AverageComplexity`,
`Stats.TotalComplexity`, `Stats.Report`, the complexity visitor) is consumed as
a contract.  Definitions taken from the front-end source carry a comment citing
`main.go`; definitions for the missing library carry a doc comment starting
with `Modelled from the spec:` and follow the specification text.

Go machine integers are modelled as unbounded `Int` (no value in this program
approaches the 64-bit range); Go floating point values are modelled as exact
rationals `Rat`; Go's `panic` (integer division by zero) and `os.Exit` paths
are modelled with `Option`/`Except`.
-/
import Mathlib

namespace Gocyclo

/-- Modelled from the spec: `Position` — file path, 1-based line, 1-based
column of the declaration's introducing keyword (§3).  Mirrors the library's
`token.Position` as consumed by the front-end. -/
structure Position where
  filename : String
  line : Nat
  column : Nat
deriving Repr, DecidableEq

/-- Modelled from the spec: `Measurement` — package name, qualified function
name, complexity score, `Position` (§3).  Mirrors the library's `Stat` record
consumed by `main.go`. -/
structure Stat where
  pkgName : String
  funcName : String
  complexity : Int
  pos : Position
deriving Repr, DecidableEq

/-- The sort key of §4.3: complexity descending (hence the negation), then
package name, qualified function name, file path and line, each ascending,
compared lexicographically. -/
def key (a : Stat) : Int ×ₗ (String ×ₗ (String ×ₗ (String ×ₗ Nat))) :=
  toLex (-a.complexity,
    toLex (a.pkgName, toLex (a.funcName, toLex (a.pos.filename, a.pos.line))))

/-- The same key as a plain tuple (definitionally equal carrier), convenient
for stating injectivity. -/
def keyT (a : Stat) : Int × String × String × String × Nat :=
  (-a.complexity, a.pkgName, a.funcName, a.pos.filename, a.pos.line)

/-- The total order of §4.3 on measurements. -/
def StatLE (a b : Stat) : Prop := key a ≤ key b

instance : DecidableRel StatLE :=
  fun a b => inferInstanceAs (Decidable (key a ≤ key b))

instance : IsTotal Stat StatLE := ⟨fun a b => le_total (key a) (key b)⟩

instance : IsTrans Stat StatLE := ⟨fun _ _ _ hab hbc => le_trans hab hbc⟩

/-- Modelled from the spec: the sorting step of `sortAndFilter` (§4.3) — a
stable sort of the full set by `StatLE`. -/
def sortStats (l : List Stat) : List Stat := l.insertionSort StatLE

/-- Modelled from the spec: "If `over > 0`, keep only entries with complexity
strictly greater than `over`" (§4.3). -/
def filterOver (over : Int) (l : List Stat) : List Stat :=
  if 0 < over then l.filter (fun st => decide (over < st.complexity)) else l

/-- Modelled from the spec: "If `under > 0`, keep only entries with complexity
strictly less than `under`" (§4.3). -/
def filterUnder (under : Int) (l : List Stat) : List Stat :=
  if 0 < under then l.filter (fun st => decide (st.complexity < under)) else l

/-- Modelled from the spec: `sortAndFilter(all, top, over, under) → shown`
(§4.3): sort, apply the `over` and `under` threshold filters, then, if
`top ≥ 0`, truncate to the first `top` entries.  The library method invoked at
`main.go:85` is not part of the repository. -/
def SortAndFilter (all : List Stat) (top over under : Int) : List Stat :=
  if 0 ≤ top then (filterUnder under (filterOver over (sortStats all))).take top.toNat
  else filterUnder under (filterOver over (sortStats all))

/-- Modelled from the spec: `totalComplexity(set)` — sum of complexity over the
given set (§4.3). -/
def TotalComplexity (s : List Stat) : Int := (s.map (·.complexity)).sum

/-- Modelled from the spec: `averageComplexity(all)` — arithmetic mean of
complexity over every measurement, 0 when the set is empty (§4.3). -/
def AverageComplexity (s : List Stat) : Rat :=
  if s.length = 0 then 0 else (TotalComplexity s : Rat) / (s.length : Rat)

/-! ### Front-end embeddings (`cmd/gocyclo/main.go`) -/

/-- Go truncated integer division, with `none` modelling the runtime panic on
a zero divisor. -/
def goIntDiv (a b : Int) : Option Int :=
  if b = 0 then none else some (a.tdiv b)

/-- The percent arithmetic of `printReport` (`main.go:130`):
`value / totalComplexity * 100` in Go `int` arithmetic (division first, then
the multiplication by 100). -/
def printReportPercent (value totalComplexity : Int) : Option Int :=
  (goIntDiv value totalComplexity).map (· * 100)

/-- One row as emitted by the loop body of `printReport` (`main.go:129-131`):
lower bound `key`, upper bound the variable `last`, the count, the percent. -/
structure ReportRow where
  low : Int
  high : Int
  count : Int
  percent : Option Int
deriving Repr, DecidableEq

/-- The header line printed by `printReport` (`main.go:128`). -/
def printReportHeader : String := "RANGE\t|COUNT\t|PERCENT"

/-- The rows emitted by `printReport` (`main.go:125-132`), given the
key/value pairs of the map `s.Report(breakPoints)` in the iteration order the
Go runtime happens to choose (Go map iteration order is unspecified, so it is
a parameter here).  `totalComplexity` is `int(s.TotalComplexity())`; the
variable `last` is initialised to `-1` and never reassigned, so every row's
upper bound is `-1`. -/
def printReportRows (s : List Stat) (pairs : List (Int × Int)) : List ReportRow :=
  pairs.map (fun kv => ⟨kv.1, -1, kv.2, printReportPercent kv.2 (TotalComplexity s)⟩)

/-- `strings.Split(s, ",")`: split at every comma; the stdlib collaborator,
modelled directly on the character list. -/
def splitCommaAux : List Char → List Char → List String
  | [], acc => [String.mk acc.reverse]
  | c :: rest, acc =>
      if c = ',' then String.mk acc.reverse :: splitCommaAux rest []
      else splitCommaAux rest (c :: acc)

/-- `strings.Split(s, ",")` as used at `main.go:73`. -/
def splitComma (s : String) : List String := splitCommaAux s.data []

/-- The numeric value of a nonempty all-digit character list, `none` if any
character is not a decimal digit or the list is empty. -/
def digitsVal : List Char → Option Nat
  | [] => none
  | [c] => if c.isDigit then some (c.toNat - '0'.toNat) else none
  | c :: rest =>
      if c.isDigit then
        (digitsVal rest).map (fun n => (c.toNat - '0'.toNat) * 10 ^ rest.length + n)
      else none

/-- `strconv.Atoi` (`main.go:76`): an optional sign followed by decimal
digits; the stdlib collaborator, modelled without the 64-bit range check
(no breakpoint in scope approaches it). -/
def atoi (s : String) : Option Int :=
  match s.data with
  | '+' :: rest => (digitsVal rest).map (fun n => (n : Int))
  | '-' :: rest => (digitsVal rest).map (fun n => -(n : Int))
  | l => (digitsVal l).map (fun n => (n : Int))

/-- The breakpoint-parsing block of `main` (`main.go:71-82`): when the
`-report` flag is empty the slice stays nil; otherwise the flag is split on
commas, a slice of that length is allocated with `make([]int, len(...))`
(all zeros), and each parsed value is *appended* to it; `none` models the
`usage()` exit taken when any component fails `strconv.Atoi`. -/
def parseBreakPoints (report : String) : Option (List Int) :=
  if report = "" then some []
  else
    (splitComma report).mapM atoi |>.map
      (fun points => List.replicate (splitComma report).length 0 ++ points)

/-- `regex` (`main.go:101-110`): the empty pattern yields a nil
`*regexp.Regexp`; otherwise the pattern is compiled by the external `regexp`
collaborator (parameter `compile`), and a compile error is fatal via
`log.Fatal`, which exits with status 1 — modelled as `Except.error 1`. -/
def regex (RE : Type) (compile : String → Option RE) (expr : String) :
    Except Nat (Option RE) :=
  if expr = "" then .ok none
  else
    match compile expr with
    | some r => .ok (some r)
    | none => .error 1

/-- The flag values consumed by `main` after `flag.Parse` (`main.go:54-60`). -/
structure Config where
  top : Int
  over : Int
  under : Int
  avg : Bool
  avgShort : Bool
  ignore : String
  report : String
deriving Repr, DecidableEq

/-- Modelled from the spec: the display line of one measurement —
"complexity, package name, qualified function name, and `path:line:column`"
(§6); the library's `Stat.String` method invoked by `printStats`
(`main.go:112-116`) is not part of the repository. -/
def statString (st : Stat) : String :=
  s!"{st.complexity} {st.pkgName} {st.funcName} " ++
    s!"{st.pos.filename}:{st.pos.line}:{st.pos.column}"

/-- What `main` produces from the analyzed stats: the shown lines, the
optionally printed average, and the exit status (`main.go:84-98`).  The
report table is modelled separately by `printReportRows` because it formats
an unordered map. -/
structure MainOutput where
  shownLines : List String
  averageShown : Option Rat
  exitCode : Nat
deriving Repr, DecidableEq

/-- The aggregation-and-display phase of `main` (`main.go:84-98`): the shown
set is `allStats.SortAndFilter(top, over, under)` (line 85), the average is
computed from `allStats` (line 89), and the exit status is 1 exactly when
`*over > 0 && len(shownStats) > 0` (lines 96-98), else 0. -/
def runMain (allStats : List Stat) (cfg : Config) : MainOutput :=
  let shownStats := SortAndFilter allStats cfg.top cfg.over cfg.under
  { shownLines := shownStats.map statString
    averageShown :=
      if cfg.avg || cfg.avgShort then some (AverageComplexity allStats) else none
    exitCode := if 0 < cfg.over ∧ 0 < shownStats.length then 1 else 0 }

/-- `main` from flag values onward (`main.go:71-98`): parse the breakpoints,
compile the ignore pattern, run the analysis (the external `gocyclo.Analyze`,
parameter `analyze`), aggregate and display.  A configuration error
short-circuits with the process exit status. -/
def mainModel (RE : Type) (compile : String → Option RE)
    (analyze : Option RE → List Stat) (cfg : Config) : Except Nat MainOutput :=
  match parseBreakPoints cfg.report with
  | none => .error 2
  | some _ =>
    match regex RE compile cfg.ignore with
    | .error c => .error c
    | .ok re => .ok (runMain (analyze re) cfg)

/-- Modelled from the spec: the exclusion test of `collect` — "each parsed
file whose path does not match the externally supplied exclusion predicate"
(§4.2); a nil predicate matches nothing. -/
def matchesFilter (pred : Option (String → Bool)) (path : String) : Bool :=
  match pred with
  | none => false
  | some p => p path

/-- Modelled from the spec: the file-selection step of `Analyze`
(`main.go:84`'s callee): keep every candidate path not matched by the
exclusion predicate (§4.2). -/
def analyzePaths (pred : Option (String → Bool)) (paths : List String) :
    List String :=
  paths.filter (fun p => !matchesFilter pred p)

/-! ### The spec's report contract (§4.3) -/

/-- Modelled from the spec: "breakpoints are sorted ascending first" (§4.3). -/
def sortInts (l : List Int) : List Int := l.insertionSort (· ≤ ·)

/-- Bounds of the buckets after the first: `[bᵢ, bᵢ₊₁)` and finally
`[b_last, +∞)` (§4.3); `none` is an infinite bound. -/
def boundsAux : Int → List Int → List (Option Int × Option Int)
  | b, [] => [(some b, none)]
  | b, b2 :: rest => (some b, some b2) :: boundsAux b2 rest

/-- Modelled from the spec: the ordered bucket bounds derived from sorted
breakpoints — `(-∞, b₀)`, the half-open middle ranges, `[b_last, +∞)`
(§4.3). -/
def bucketBounds : List Int → List (Option Int × Option Int)
  | [] => [(none, none)]
  | b :: rest => (none, some b) :: boundsAux b rest

/-- Membership of a complexity value in a bucket's half-open range. -/
def inBucket (c : Int) (bds : Option Int × Option Int) : Bool :=
  (match bds.1 with | none => true | some lo => decide (lo ≤ c)) &&
  (match bds.2 with | none => true | some hi => decide (c < hi))

/-- Modelled from the spec: `report(set, breakpoints)` — the ordered sequence
of `{rangeLow, rangeHigh, count, percent}` with `percent = 100 × count /
total` in floating point (exact rational here) and every percent 0 when the
total is 0 (§4.3). -/
def ReportSpec (s : List Stat) (breakPoints : List Int) :
    List (Option Int × Option Int × Nat × Rat) :=
  (bucketBounds (sortInts breakPoints)).map (fun bd =>
    let count := (s.filter (fun st => inBucket st.complexity bd)).length
    (bd.1, bd.2, count,
      if s.length = 0 then 0 else 100 * (count : Rat) / (s.length : Rat)))

/-! ### The complexity visitor (§4.1) -/

/-- A Go binary operator, reduced to what the visitor inspects: `token.LAND`,
`token.LOR`, or anything else. -/
inductive BinOp where
  | land
  | lor
  | other
deriving DecidableEq, Repr

/-- Modelled from the spec: the shape of a function body's subtree as seen by
the complexity visitor (§4.1) — conditional statements, the three loop forms
(counted/indefinite `for` and `range`), multi-way branches and their arms
(`caseClause` with `hasList = false` and `commClause` with `hasComm = false`
are `default` arms), binary expressions, nested function literals, and
sequencing/leaf nodes for everything that contributes nothing. -/
inductive Node where
  | ifStmt (cond body els : Node)
  | forStmt (body : Node)
  | rangeStmt (body : Node)
  | switchStmt (body : Node)
  | selectStmt (body : Node)
  | caseClause (hasList : Bool) (body : Node)
  | commClause (hasComm : Bool) (body : Node)
  | binaryExpr (op : BinOp) (x y : Node)
  | funcLit (body : Node)
  | seq (a b : Node)
  | leaf
deriving DecidableEq, Repr

/-- One traversal of the body subtree, adding `f n` at every node visited;
nested function literals are not descended into, since "their internal
branches are NOT counted toward the enclosing function" (§4.1). -/
def walkCount (f : Node → Nat) : Node → Nat
  | n@(.ifStmt c b e) => f n + walkCount f c + walkCount f b + walkCount f e
  | n@(.forStmt b) => f n + walkCount f b
  | n@(.rangeStmt b) => f n + walkCount f b
  | n@(.switchStmt b) => f n + walkCount f b
  | n@(.selectStmt b) => f n + walkCount f b
  | n@(.caseClause _ b) => f n + walkCount f b
  | n@(.commClause _ b) => f n + walkCount f b
  | n@(.binaryExpr _ x y) => f n + walkCount f x + walkCount f y
  | n@(.funcLit _) => f n
  | n@(.seq a b) => f n + walkCount f a + walkCount f b
  | n@.leaf => f n

/-- Modelled from the spec: the visitor's per-node increment (§4.1) — 1 for an
`if`, 1 for each loop construct, 1 for each non-default arm of a switch-style,
type-switch-style or select-style branch, 1 for each `&&`/`||` occurrence,
0 for every other node kind. -/
def visitInc : Node → Nat
  | .ifStmt .. => 1
  | .forStmt .. => 1
  | .rangeStmt .. => 1
  | .caseClause hasList _ => if hasList then 1 else 0
  | .commClause hasComm _ => if hasComm then 1 else 0
  | .binaryExpr op _ _ => if op = .land ∨ op = .lor then 1 else 0
  | _ => 0

/-- Modelled from the spec: the complexity of one function/method body —
"start the score at 1 ... and add 1 for each of the following node kinds"
(§4.1). -/
def Complexity (body : Node) : Nat := 1 + walkCount visitInc body

/-- 1 on an `if` statement, 0 elsewhere. -/
def ifInc : Node → Nat
  | .ifStmt .. => 1
  | _ => 0

/-- 1 on a loop construct, 0 elsewhere. -/
def loopInc : Node → Nat
  | .forStmt .. => 1
  | .rangeStmt .. => 1
  | _ => 0

/-- 1 on a non-default arm of a multi-way branch, 0 elsewhere. -/
def armInc : Node → Nat
  | .caseClause hasList _ => if hasList then 1 else 0
  | .commClause hasComm _ => if hasComm then 1 else 0
  | _ => 0

/-- 1 on a short-circuiting `&&`/`||` occurrence, 0 elsewhere. -/
def scInc : Node → Nat
  | .binaryExpr op _ _ => if op = .land ∨ op = .lor then 1 else 0
  | _ => 0

/-- Number of `if` statements in the body. -/
def countIf (body : Node) : Nat := walkCount ifInc body

/-- Number of loop constructs in the body. -/
def countLoops (body : Node) : Nat := walkCount loopInc body

/-- Number of non-default arms of multi-way branches in the body. -/
def countArms (body : Node) : Nat := walkCount armInc body

/-- Number of short-circuiting `&&`/`||` occurrences in the body. -/
def countShortCircuit (body : Node) : Nat := walkCount scInc body

/-- A body with one loop and a 3-arm, non-default multi-way branch (§8). -/
def loopSwitchBody : Node :=
  .seq (.forStmt .leaf)
    (.switchStmt (.seq (.caseClause true .leaf)
      (.seq (.caseClause true .leaf) (.caseClause true .leaf))))

/-! ### Sample measurements for concrete evaluations -/

/-- A trivial function of complexity 1. -/
def sampleA : Stat := ⟨"main", "Alpha", 1, ⟨"a.go", 10, 1⟩⟩

/-- A function of complexity 3. -/
def sampleB : Stat := ⟨"main", "Beta", 3, ⟨"b.go", 20, 1⟩⟩

/-- A function of complexity 5. -/
def sampleC : Stat := ⟨"main", "Gamma", 5, ⟨"c.go", 30, 1⟩⟩

/-- A three-measurement set in collection order. -/
def sampleStats : List Stat := [sampleA, sampleB, sampleC]

/-- A default flag configuration with the average enabled. -/
def sampleConfig : Config := ⟨-1, 0, 0, true, false, "", ""⟩

/-- The sort key determines the measurement within the list: two measurements
of the set that agree on complexity, package, name, file and line are the same
record.  (Holds for any real collection: two distinct declarations cannot
start at the same file and line.) -/
def KeyInjOn (l : List Stat) : Prop :=
  ∀ a ∈ l, ∀ b ∈ l, keyT a = keyT b → a = b

instance (l : List Stat) : Decidable (KeyInjOn l) :=
  inferInstanceAs (Decidable (∀ a ∈ l, ∀ b ∈ l, keyT a = keyT b → a = b))

/-! ### Helper lemmas -/

theorem sortStats_sorted (l : List Stat) : (sortStats l).Sorted StatLE :=
  List.sorted_insertionSort StatLE l

theorem sortStats_perm (l : List Stat) : (sortStats l).Perm l :=
  List.perm_insertionSort StatLE l

theorem filterOver_subset (over : Int) (l : List Stat) : filterOver over l ⊆ l := by
  unfold filterOver
  split
  · exact fun _ h => List.mem_of_mem_filter h
  · exact fun _ h => h

theorem filterUnder_subset (under : Int) (l : List Stat) : filterUnder under l ⊆ l := by
  unfold filterUnder
  split
  · exact fun _ h => List.mem_of_mem_filter h
  · exact fun _ h => h

theorem mem_filterOver_prop {over : Int} {l : List Stat} {st : Stat}
    (h0 : 0 < over) (h : st ∈ filterOver over l) : over < st.complexity := by
  unfold filterOver at h
  rw [if_pos h0] at h
  exact of_decide_eq_true (List.mem_filter.mp h).2

theorem mem_filterUnder_prop {under : Int} {l : List Stat} {st : Stat}
    (h0 : 0 < under) (h : st ∈ filterUnder under l) : st.complexity < under := by
  unfold filterUnder at h
  rw [if_pos h0] at h
  exact of_decide_eq_true (List.mem_filter.mp h).2

theorem mem_sortAndFilter {all : List Stat} {top over under : Int} {st : Stat}
    (h : st ∈ SortAndFilter all top over under) :
    st ∈ filterUnder under (filterOver over (sortStats all)) := by
  unfold SortAndFilter at h
  split at h
  · exact List.take_subset _ _ h
  · exact h

theorem keyT_eq_iff (a b : Stat) : keyT a = keyT b ↔ key a = key b := Iff.rfl

theorem sorted_map_key {l : List Stat} (h : l.Sorted StatLE) :
    (l.map key).Sorted (· ≤ ·) :=
  List.Pairwise.map key (fun _ _ hab => hab) h

theorem eq_of_perm_of_map_key :
    ∀ (l₁ l₂ : List Stat), l₁.Perm l₂ → l₁.map key = l₂.map key →
      KeyInjOn l₁ → l₁ = l₂ := by
  intro l₁
  induction l₁ with
  | nil =>
    intro l₂ hp _ _
    exact hp.nil_eq
  | cons a t₁ ih =>
    intro l₂ hp hm hinj
    cases l₂ with
    | nil => exact absurd hp.symm.nil_eq (by simp)
    | cons b t₂ =>
      have hk : key a = key b := by
        injection hm
      have hb : b ∈ a :: t₁ := hp.symm.subset (List.mem_cons_self b t₂)
      have hab : a = b :=
        hinj a (List.mem_cons_self a t₁) b hb ((keyT_eq_iff a b).mpr hk)
      subst hab
      have hm2 : t₁.map key = t₂.map key := by
        injection hm
      have hinj2 : KeyInjOn t₁ := fun x hx y hy =>
        hinj x (List.mem_cons_of_mem _ hx) y (List.mem_cons_of_mem _ hy)
      rw [ih t₂ hp.cons_inv hm2 hinj2]

theorem eq_of_perm_of_sorted_keys {l₁ l₂ : List Stat} (hp : l₁.Perm l₂)
    (hs₁ : l₁.Sorted StatLE) (hs₂ : l₂.Sorted StatLE) (hinj : KeyInjOn l₁) :
    l₁ = l₂ := by
  haveI : IsAntisymm (Int ×ₗ (String ×ₗ (String ×ₗ (String ×ₗ Nat))))
      (· ≤ ·) := ⟨fun _ _ => le_antisymm⟩
  exact eq_of_perm_of_map_key l₁ l₂ hp
    (List.eq_of_perm_of_sorted (hp.map key) (sorted_map_key hs₁) (sorted_map_key hs₂))
    hinj

theorem sortStats_eq_of_perm {l₁ l₂ : List Stat} (h : l₁.Perm l₂)
    (hinj : KeyInjOn l₁) : sortStats l₁ = sortStats l₂ := by
  have hperm : (sortStats l₁).Perm (sortStats l₂) :=
    (sortStats_perm l₁).trans (h.trans (sortStats_perm l₂).symm)
  have hinj2 : KeyInjOn (sortStats l₁) := fun x hx y hy =>
    hinj x ((sortStats_perm l₁).subset hx) y ((sortStats_perm l₁).subset hy)
  exact eq_of_perm_of_sorted_keys hperm (sortStats_sorted l₁) (sortStats_sorted l₂) hinj2

theorem visitInc_eq (n : Node) :
    visitInc n = ifInc n + loopInc n + armInc n + scInc n := by
  cases n <;> simp [visitInc, ifInc, loopInc, armInc, scInc]

theorem walkCount_decompose (n : Node) :
    walkCount visitInc n =
      walkCount ifInc n + walkCount loopInc n + walkCount armInc n +
        walkCount scInc n := by
  induction n <;> simp only [walkCount, visitInc_eq, *] <;> omega

/-! ### Claim theorems -/

/-- C1: the claim says every bucket percent is `100 × count / total` in
floating point, with every percent 0 and no division by zero when the total
is 0.  The code (`main.go:130`) instead computes `value/totalComplexity*100`
in integer arithmetic: for a bucket of count 1 over a set of total complexity
3 it yields 0 where the claimed value is 100/3, and on a zero total the
division panics (`none`) rather than yielding 0. -/
theorem printReportPercent_integer_division_bug :
    TotalComplexity [sampleB] = 3
    ∧ printReportPercent 1 (TotalComplexity [sampleB]) = some 0
    ∧ 100 * (1 : Rat) / 3 ≠ 0
    ∧ printReportPercent 0 (TotalComplexity ([] : List Stat)) = none :=
  ⟨rfl, rfl, by norm_num, rfl⟩

/-- C2: `sortAndFilter` sorts by complexity descending with the
package/name/file/line ascending tie-breaks (the order `StatLE`), applies the
`over` and `under` strict threshold filters when positive, and truncates to
the first `top` entries when `top ≥ 0`, with the thresholds applied before
the truncation. -/
theorem sortAndFilter_spec (all : List Stat) (top over under : Int) :
    (sortStats all).Perm all
    ∧ (sortStats all).Sorted StatLE
    ∧ SortAndFilter all top over under =
        (if 0 ≤ top then
          (filterUnder under (filterOver over (sortStats all))).take top.toNat
         else filterUnder under (filterOver over (sortStats all)))
    ∧ (0 < over → ∀ st ∈ SortAndFilter all top over under, over < st.complexity)
    ∧ (0 < under → ∀ st ∈ SortAndFilter all top over under, st.complexity < under)
    ∧ (0 ≤ top → (SortAndFilter all top over under).length ≤ top.toNat) := by
  refine ⟨sortStats_perm all, sortStats_sorted all, rfl, ?_, ?_, ?_⟩
  · intro h0 st hst
    exact mem_filterOver_prop h0 (filterUnder_subset under _ (mem_sortAndFilter hst))
  · intro h0 st hst
    exact mem_filterUnder_prop h0 (mem_sortAndFilter hst)
  · intro h0
    unfold SortAndFilter
    rw [if_pos h0]
    exact List.length_take_le _ _

/-- Witness for C2 at a concrete set: `over = 2` then `top = 1` on the sample
set keeps only complexities above 2, at most one entry, namely the most
complex one. -/
theorem sortAndFilter_spec_witness :
    (∀ st ∈ SortAndFilter sampleStats 1 2 0, 2 < st.complexity)
    ∧ (SortAndFilter sampleStats 1 2 0).length ≤ 1
    ∧ SortAndFilter sampleStats 1 2 0 = [sampleC] := by
  have h := sortAndFilter_spec sampleStats 1 2 0
  exact ⟨h.2.2.2.1 (by decide), h.2.2.2.2.2 (by decide), by decide⟩

/-- C3: complexity starts at 1 and adds exactly 1 per `if`, per loop
construct, per non-default multi-way-branch arm, and per short-circuit
operator occurrence, and nothing else; an empty body scores 1; one loop plus
a 3-arm non-default switch scores 5 (and a chain of three ANDs scores 4). -/
theorem complexity_spec :
    (∀ body, Complexity body =
        1 + (countIf body + countLoops body + countArms body + countShortCircuit body))
    ∧ Complexity Node.leaf = 1
    ∧ Complexity loopSwitchBody = 5
    ∧ Complexity (Node.binaryExpr .land (Node.binaryExpr .land
        (Node.binaryExpr .land .leaf .leaf) .leaf) .leaf) = 4 := by
  refine ⟨?_, rfl, by decide, by decide⟩
  intro body
  unfold Complexity countIf countLoops countArms countShortCircuit
  rw [walkCount_decompose]

/-- C4: the displayed average is computed from the full set (`main.go:89`
passes `allStats` to `printAverage`), for every choice of the display filters
`top`/`over`/`under`; it is 0 on the empty set, and on a nonempty set it is
the arithmetic mean of the complexities. -/
theorem average_uses_full_set (all : List Stat) (top over under : Int) :
    (runMain all ⟨top, over, under, true, false, "", ""⟩).averageShown
        = some (AverageComplexity all)
    ∧ (all = [] → AverageComplexity all = 0)
    ∧ (all ≠ [] →
        AverageComplexity all * (all.length : Rat) = (TotalComplexity all : Rat)) := by
  refine ⟨rfl, ?_, ?_⟩
  · rintro rfl
    rfl
  · intro h
    have hlen : all.length ≠ 0 := fun hc => h (List.length_eq_zero.mp hc)
    have hne : (all.length : Rat) ≠ 0 := Nat.cast_ne_zero.mpr hlen
    unfold AverageComplexity
    rw [if_neg hlen]
    exact div_mul_cancel₀ _ hne

/-- Witness for C4: the empty set has average 0, and the sample set has
average 3 on display even when the shown set is filtered down to one entry. -/
theorem average_uses_full_set_witness :
    (runMain [] ⟨2, 3, 4, true, false, "", ""⟩).averageShown = some (AverageComplexity [])
    ∧ AverageComplexity [] = 0
    ∧ (runMain sampleStats ⟨1, 2, 0, true, false, "", ""⟩).averageShown = some 3 := by
  refine ⟨(average_uses_full_set [] 2 3 4).1, (average_uses_full_set [] 2 3 4).2.1 rfl, ?_⟩
  have havg : AverageComplexity sampleStats = 3 := by
    norm_num [AverageComplexity, TotalComplexity, sampleStats, sampleA, sampleB, sampleC]
  exact ((average_uses_full_set sampleStats 1 2 0).1).trans (by rw [havg])

/-- C5: the claim says each emitted row shows the bucket's range bounds, in
ascending range order.  In the code (`main.go:127-131`) the loop variable
`last` is initialised to `-1` and never updated, so every row's upper bound
prints as `-1` — here the set `[sampleB]` with breakpoints `[5]` should show
the buckets `(-∞, 5)` and `[5, +∞)`, but the emitted row for the pair
`(5, 1)` has bounds `[5, -1)` — and the rows follow the unspecified iteration
order of the Go map returned by `Report`. -/
theorem printReport_bounds_bug :
    printReportRows [sampleB] [(5, 1)] = [⟨5, -1, 1, some 0⟩]
    ∧ ReportSpec [sampleB] [5] = [(none, some 5, 1, 100), (some 5, none, 0, 0)]
    ∧ ((-1 : Int) ≠ 5) := by
  refine ⟨rfl, ?_, by decide⟩
  simp only [ReportSpec, sortInts, bucketBounds, boundsAux, inBucket, sampleB,
    List.insertionSort, List.orderedInsert, List.map, List.filter, List.length]
  norm_num

/-- C6: the exit status (`main.go:96-98`) is 1 exactly when `over > 0` was
supplied and the shown set is non-empty, and 0 exactly otherwise. -/
theorem exit_code_spec (all : List Stat) (cfg : Config) :
    ((runMain all cfg).exitCode = 1 ↔
      0 < cfg.over ∧ SortAndFilter all cfg.top cfg.over cfg.under ≠ [])
    ∧ ((runMain all cfg).exitCode = 0 ↔
      ¬(0 < cfg.over ∧ SortAndFilter all cfg.top cfg.over cfg.under ≠ [])) := by
  have hrm : (runMain all cfg).exitCode =
      if 0 < cfg.over ∧ 0 < (SortAndFilter all cfg.top cfg.over cfg.under).length
      then 1 else 0 := rfl
  rw [hrm]
  by_cases h : 0 < cfg.over ∧ 0 < (SortAndFilter all cfg.top cfg.over cfg.under).length
  · rw [if_pos h]
    have h2 : 0 < cfg.over ∧ SortAndFilter all cfg.top cfg.over cfg.under ≠ [] :=
      ⟨h.1, List.length_pos.mp h.2⟩
    exact ⟨⟨fun _ => h2, fun _ => rfl⟩,
      ⟨fun hc => absurd hc (by decide), fun hc => absurd h2 hc⟩⟩
  · rw [if_neg h]
    have h2 : ¬(0 < cfg.over ∧ SortAndFilter all cfg.top cfg.over cfg.under ≠ []) :=
      fun hc => h ⟨hc.1, List.length_pos.mpr hc.2⟩
    exact ⟨⟨fun hc => absurd hc (by decide), fun hp => absurd hp h2⟩,
      ⟨fun _ => h2, fun _ => rfl⟩⟩

/-- C7 counterexample: a malformed exclusion pattern is fatal, but through
`log.Fatal` (`main.go:107`), which exits with status 1 — not with the
usage-error status 2 that `usage()` uses (`main.go:136`). -/
theorem regex_fatal_status_cex :
    regex Unit (fun _ => none) "(" = Except.error 1
    ∧ mainModel Unit (fun _ => none) (fun _ => [])
        ⟨-1, 0, 0, false, false, "(", ""⟩ = Except.error 1
    ∧ (1 : Nat) ≠ 2 :=
  ⟨rfl, rfl, by decide⟩

/-- C7 amended: both configuration errors are fatal before any analysis runs
(the result does not depend on the analyzer); a malformed numeric component
of `-report` exits with the usage-error status 2, while a malformed exclusion
pattern exits via `log.Fatal` with status 1. -/
theorem configError_fatal (RE : Type) (compile : String → Option RE) (cfg : Config) :
    (parseBreakPoints cfg.report = none →
      ∀ analyze : Option RE → List Stat,
        mainModel RE compile analyze cfg = Except.error 2)
    ∧ (parseBreakPoints cfg.report ≠ none → cfg.ignore ≠ "" →
        compile cfg.ignore = none →
      ∀ analyze : Option RE → List Stat,
        mainModel RE compile analyze cfg = Except.error 1) := by
  constructor
  · intro h analyze
    unfold mainModel
    rw [h]
  · intro hbp hig hcomp analyze
    unfold mainModel
    cases hp : parseBreakPoints cfg.report with
    | none => exact absurd hp hbp
    | some bps =>
      unfold regex
      rw [if_neg hig, hcomp]

/-- Witness for C7 at concrete inputs: `-report x` exits 2; `-ignore (` with
a failing compiler exits 1; in both cases the analyzer is irrelevant. -/
theorem configError_fatal_witness :
    mainModel Unit (fun _ => none) (fun _ => [])
        ⟨-1, 0, 0, false, false, "", "x"⟩ = Except.error 2
    ∧ mainModel Unit (fun _ => none) (fun _ => [])
        ⟨-1, 0, 0, false, false, "(", ""⟩ = Except.error 1 :=
  ⟨(configError_fatal Unit (fun _ => none) _).1 (by decide) _,
    (configError_fatal Unit (fun _ => none) _).2 (by decide) (by decide) rfl _⟩

/-- C8: the claim says the `-report` value's `k` integers reach `Report`
exactly as given.  The code (`main.go:74-80`) allocates the slice with
`make([]int, k)` and then appends, so `-report 1,2` produces `[0, 0, 1, 2]` —
`k` leading zeros before the parsed values — and a strictly increasing
user-supplied list does not reach the aggregator strictly increasing. -/
theorem parseBreakPoints_bug :
    parseBreakPoints "1,2" = some [0, 0, 1, 2]
    ∧ parseBreakPoints "1,2" ≠ some [1, 2]
    ∧ ¬ List.Sorted (· < ·) [(0 : Int), 0, 1, 2] := by
  refine ⟨by decide, by decide, fun h => ?_⟩
  exact lt_irrefl (0 : Int) (List.rel_of_sorted_cons h 0 (by simp))

/-- C9: the aggregation-and-display pipeline is a function of the measurement
set's contents, not of its arrival order: on two runs whose collected sets
are permutations of each other (in particular, on two runs over unchanged
input), the shown lines — bytes, sort order and positions — the average and
the exit status coincide, provided the sort key determines the record (no
two distinct measurements share complexity, package, name, file and line). -/
theorem pipeline_deterministic (all₁ all₂ : List Stat) (cfg : Config)
    (hperm : all₁.Perm all₂) (hinj : KeyInjOn all₁) :
    runMain all₁ cfg = runMain all₂ cfg := by
  have hsort : sortStats all₁ = sortStats all₂ := sortStats_eq_of_perm hperm hinj
  have hshown : SortAndFilter all₁ cfg.top cfg.over cfg.under
      = SortAndFilter all₂ cfg.top cfg.over cfg.under := by
    unfold SortAndFilter
    rw [hsort]
  have havg : AverageComplexity all₁ = AverageComplexity all₂ := by
    unfold AverageComplexity TotalComplexity
    rw [hperm.length_eq, (hperm.map (·.complexity)).sum_eq]
  unfold runMain
  rw [hshown, havg]

/-- Witness for C9: two arrival orders of the two-element sample set produce
identical output. -/
theorem pipeline_deterministic_witness :
    runMain [sampleA, sampleB] sampleConfig = runMain [sampleB, sampleA] sampleConfig :=
  pipeline_deterministic [sampleA, sampleB] [sampleB, sampleA] sampleConfig
    (by decide) (by decide)

/-- C10: with the default empty `-ignore` value, `regex` (`main.go:101-104`)
compiles nothing and returns the nil pattern, and the collection run with a
nil exclusion predicate keeps every candidate file. -/
theorem ignore_empty_no_exclusion (RE : Type) (compile : String → Option RE)
    (paths : List String) :
    regex RE compile "" = Except.ok none ∧ analyzePaths none paths = paths := by
  refine ⟨rfl, ?_⟩
  simp [analyzePaths, matchesFilter]

end Gocyclo
